import Mathlib

/-!
Shallow embedding of the pandros column-interpretation engine
(src/pandros/__init__.py) and proofs about its behaviour.

Conventions of the embedding:
* A pandas cell value is `Cell`: text, numeric, or missing (NaN/NA).
* Python exceptions are `PyError`: either a `ValidationException`
  (carrying a `Diagnostic` tree) or a generic (non-Validation) exception.
* Fallible code returns `Except PyError α`; `ValidOr` catches only the
  Validation family, so generic errors propagate.
* Machine strings are Lean `String`s; row indices are `Nat` positions
  (pandas default RangeIndex after a header read).
-/

namespace Pandros

/-- A spreadsheet cell value: text, numeric, or missing (NaN / pd.NA). -/
inductive Cell where
  | text (s : String)
  | num (n : Int)
  | missing
deriving DecidableEq

/-- The `str(...)` form of a cell value as pandas/Python would produce it
(`str` of a float NaN is "nan"; callers in the source always test
`pd.isna` before converting, so the missing branch is inert). -/
def cellStr : Cell → String
  | .text s => s
  | .num n => toString n
  | .missing => "nan"

/-- Diagnostic tree of the Validation exception family
(`ValidationException` with its optional `__cause__` chain, and
`MultiValidationException` with its list of aggregated children).
The source's cause is always another ValidationException on every path
the analysis can take, so the cause here is a `Diagnostic`. -/
inductive Diagnostic where
  | leaf (msg : String) (cause : Option Diagnostic)
  | multi (msg : String) (children : List Diagnostic)

/-- A Python exception: a member of the Validation family, or any other
(generic) exception such as `Exception`, `ZeroDivisionError`, ... -/
inductive PyError where
  | validation (d : Diagnostic)
  | generic (msg : String)

/-- Whether an exception belongs to the Validation family
(`isinstance(e, ValidationException)`). -/
def PyError.isValidation : PyError → Bool
  | .validation _ => true
  | .generic _ => false

/-- Three spaces per indentation level, as in `"   "*indent`. -/
def indentStr (n : Nat) : String := String.join (List.replicate n "   ")

/-- `ValidationException.readable` / `MultiValidationException.readable`:
depth-first rendering with indentation proportional to nesting. -/
def Diagnostic.readable : Diagnostic → Nat → List String
  | .leaf msg none, ind => [indentStr ind ++ msg]
  | .leaf msg (some c), ind => (indentStr ind ++ msg ++ ":") :: c.readable (ind + 1)
  | .multi msg cs, ind =>
      (indentStr ind ++ msg ++ ":") ::
        (cs.attach.map (fun c => c.1.readable (ind + 1))).flatten
  termination_by d _ => sizeOf d
  decreasing_by
    · simp only [Diagnostic.leaf.sizeOf_spec, Option.some.sizeOf_spec]
      omega
    · have h := List.sizeOf_lt_of_mem c.2
      simp only [Diagnostic.multi.sizeOf_spec]
      omega

/-- `ValidationException.long_message`: the full rendered text. -/
def Diagnostic.long_message (d : Diagnostic) : String :=
  String.intercalate "\n" (d.readable 0)

/-- `ValidationException.__eq__`: two diagnostics compare equal iff their
full rendered texts are equal. -/
def Diagnostic.beqRendered (a b : Diagnostic) : Bool :=
  a.long_message == b.long_message

/-- Deduplication step of `MultiValidationException.__init__`
(`list(set(multi))`): sets hash and compare `ValidationException`s by
rendered text, so one representative survives per rendered text. -/
def dedupByMessage : List Diagnostic → List Diagnostic
  | [] => []
  | d :: ds =>
      d :: dedupByMessage (ds.filter (fun e => ¬ e.long_message = d.long_message))
  termination_by l => l.length
  decreasing_by
    simp only [List.length_cons]
    exact Nat.lt_succ_of_le (List.length_filter_le _ _)

/-- Sorting step of `MultiValidationException.__init__` (`multi.sort()`):
`__lt__` compares rendered texts. -/
def sortByMessage (l : List Diagnostic) : List Diagnostic :=
  l.insertionSort (fun a b => a.long_message ≤ b.long_message)

/-- `MultiValidationException(multi, msg)`: aggregate a list of child
diagnostics, after folding duplicates (by rendered text) and sorting. -/
def mkMulti (msg : String) (children : List Diagnostic) : Diagnostic :=
  .multi msg (sortByMessage (dedupByMessage children))

/-- `ValidOr(f, ...)`: run a fallible computation catching only the
Validation family (`except ValidationException`); a generic exception
propagates out of the construction itself. `.ok (.ok a)` is the state
`res = a, e = None`; `.ok (.error d)` is `res = None, e = d`. -/
def validOr {α : Type} : Except PyError α → Except PyError (Except Diagnostic α)
  | .ok a => .ok (.ok a)
  | .error (.validation d) => .ok (.error d)
  | .error (.generic m) => .error (.generic m)

/-- `[c.res for c in candidates if c.res]`: the successful results among
a list of `ValidOr` outcomes, in order. -/
def okResults {α : Type} (l : List (Except Diagnostic α)) : List α :=
  l.filterMap (fun o => o.toOption)

/-- `[c.e for c in candidates]` in the all-failed case: the held
diagnostics of the `ValidOr` outcomes, in order. -/
def errResults {α : Type} (l : List (Except Diagnostic α)) : List Diagnostic :=
  l.filterMap (fun o => match o with | .error e => some e | .ok _ => none)

/-- `InterpretationCandidates.find_one` applied to the per-candidate
`ValidOr` outcomes: exactly one success is required; zero successes
raises the composite "No valid interpretatons" diagnostic aggregating
every candidate's diagnostic; more than one success raises the flat
"Too many valid interpretatons" diagnostic. (Message spelling as in the
source.) -/
def findOne {α : Type} (candidates : List (Except Diagnostic α)) : Except PyError α :=
  match okResults candidates with
  | [] => .error (.validation (mkMulti "No valid interpretatons" (errResults candidates)))
  | [a] => .ok a
  | _ :: _ :: _ => .error (.validation (.leaf "Too many valid interpretatons" none))

/-- `FileAnalysis.__init__` lines 111-119, abstracted over the
per-header-offset `ValidOr` outcomes (offsets 0..3 in order): the same
exactly-one-success arbitration, with its own composite message. -/
def fileAnalysisArbitrate {α : Type} (interps : List (Except Diagnostic α)) :
    Except PyError α :=
  match okResults interps with
  | [] =>
      .error (.validation
        (mkMulti "No valid interpretatons as a file with a header column" (errResults interps)))
  | [a] => .ok a
  | _ :: _ :: _ => .error (.validation (.leaf "Too many valid interpretatons" none))

/-- `self.pnr.replace("-", "").replace(" ", "")`: drop every hyphen and
every space. -/
def stripPnrChars (s : List Char) : List Char :=
  s.filter (fun c => ¬ (c = '-' ∨ c = ' '))

/-- Identifier normalization of `Person.__init__` (lines 248-252), on the
character list of the identifier string: strip hyphens and spaces; if the
resulting length is 12, drop the first 2 characters; if the resulting
length is 10 and characters 6-7 (`self.pnr[6:8]`) are "TF", keep the
first 6 characters. -/
def pnrNormalizeChars (s : List Char) : List Char :=
  let s1 := stripPnrChars s
  let s2 := if s1.length = 12 then s1.drop 2 else s1
  if s2.length = 10 ∧ (s2.drop 6).take 2 = ['T', 'F'] then s2.take 6 else s2

/-- Identifier normalization on strings. -/
def pnrNormalize (s : String) : String :=
  ⟨pnrNormalizeChars s.data⟩

/-- Python's unicode `str.isalpha`, restricted to the Basic Latin and
Latin-1 character repertoire this development exercises (ASCII letters
plus the Latin-1 letters U+00C0..U+00FF without the two operators
U+00D7, U+00F7). -/
def pyIsAlpha (c : Char) : Bool :=
  c.isAlpha ||
    (0xC0 ≤ c.toNat && c.toNat ≤ 0xFF && c.toNat ≠ 0xD7 && c.toNat ≠ 0xF7)

/-- Python's `str.isspace` on the ASCII repertoire. -/
def pyIsSpace (c : Char) : Bool :=
  c = ' ' || c = '\t' || c = '\n' || c = '\r' || c = '\x0b' || c = '\x0c'

/-- Python's `str.strip()`: drop leading and trailing whitespace. -/
def pyStrip (s : String) : String :=
  ⟨((s.data.dropWhile pyIsSpace).reverse.dropWhile pyIsSpace).reverse⟩

/-- Python's `str.lower` per character, on the Basic Latin and Latin-1
repertoire (A-Z and À-Þ except the multiplication sign map 32 code
points up). -/
def pyLowerChar (c : Char) : Char :=
  if (65 ≤ c.toNat ∧ c.toNat ≤ 90) ∨ (192 ≤ c.toNat ∧ c.toNat ≤ 222 ∧ c.toNat ≠ 215) then
    Char.ofNat (c.toNat + 32)
  else c

/-- Python's `str.lower` on the Basic Latin and Latin-1 repertoire. -/
def pyLower (s : String) : String := ⟨s.data.map pyLowerChar⟩

/-- Does the character list start with the given pattern list? -/
def startsWithL (t p : List Char) : Bool :=
  t.take p.length = p

/-- Does the pattern list occur anywhere in the character list? (Used to
embed a `.*pat` regex fragment.) -/
def containsL (t p : List Char) : Bool :=
  (List.range (t.length + 1)).any (fun i => startsWithL (t.drop i) p)

/-- `FamilyNameColumn.NAME_RE = re.compile("((last|family).*name|efternamn)", re.I)`
matched with `re.match` (anchored at the start), embedded as: the
lower-cased name starts with "last" or "family" followed somewhere by
"name", or starts with "efternamn". -/
def familyNameMatch (name : String) : Bool :=
  let t := (pyLower name).data
  (startsWithL t "last".data && containsL (t.drop 4) "name".data) ||
  (startsWithL t "family".data && containsL (t.drop 6) "name".data) ||
  startsWithL t "efternamn".data

/-- `GivenNameColumn.NAME_RE = re.compile("((first|given).*name|förnamn)", re.I)`
matched with `re.match`, embedded like `familyNameMatch`. -/
def givenNameMatch (name : String) : Bool :=
  let t := (pyLower name).data
  (startsWithL t "first".data && containsL (t.drop 5) "name".data) ||
  (startsWithL t "given".data && containsL (t.drop 5) "name".data) ||
  startsWithL t "förnamn".data

/-- One named spreadsheet column: header string and cells at row
positions `0..cells.length-1` (the pandas RangeIndex after a header
read). -/
structure Column where
  name : String
  cells : List Cell
deriving DecidableEq

/-- `istext` of `NameColumn.__init__`: a cell is valid name content iff
it is non-missing and its trimmed string form has length above 1 and
consists of alphabetic characters and spaces only. -/
def istext (c : Cell) : Bool :=
  match c with
  | .missing => false
  | c =>
      let s := pyStrip (cellStr c)
      decide (1 < s.length) && s.data.all (fun ch => pyIsAlpha ch || pyIsSpace ch)

/-- A successful column classification: role key, originating column,
per-row found data, and the valid row positions. -/
structure ClassifiedColumn where
  key : String
  column : Column
  found_data : List Cell
  valid_rows : List Nat
deriving DecidableEq

/-- `NameColumn.__init__` shared by the given-name and family-name
classifiers: the trimmed header must match the role pattern; the valid
rows are those whose cell passes `istext`; if under 80% of all rows are
valid, classification fails. On an empty column the ratio test is a
Python `ZeroDivisionError`, a generic (non-Validation) exception.
`found_data` is the trimmed string form of every row. -/
def nameColumnClassify (key : String) (matchFn : String → Bool) (col : Column) :
    Except PyError ClassifiedColumn :=
  let name := pyStrip col.name
  if ¬ matchFn name then
    .error (.validation (.leaf ("Unrecognized column name \x27" ++ col.name ++ "\x27") none))
  else
    let valid_rows := (List.range col.cells.length).filter
      (fun i => istext (col.cells.getD i .missing))
    if col.cells.length = 0 then
      .error (.generic "ZeroDivisionError: division by zero")
    else if 100 * valid_rows.length < 80 * col.cells.length then
      .error (.validation
        (.leaf ("Content of column \x27" ++ col.name ++ "\x27 is not mostly alphabetical") none))
    else
      .ok { key := key, column := col,
            found_data := col.cells.map (fun c => .text (pyStrip (cellStr c))),
            valid_rows := valid_rows }

/-- `FamilyNameColumn`: the name classifier with key "family_name". -/
def familyNameColumn (col : Column) : Except PyError ClassifiedColumn :=
  nameColumnClassify "family_name" familyNameMatch col

/-- `GivenNameColumn`: the name classifier with key "given_name". -/
def givenNameColumn (col : Column) : Except PyError ClassifiedColumn :=
  nameColumnClassify "given_name" givenNameMatch col

/-- Spec-level row-validity predicate for name columns, written from the
spec sentence: the cell, after trimming, is non-missing, has length
greater than 1, and consists only of alphabetic characters and spaces.
Stated independently of `istext` to compare the two. -/
def specValidNameCell (c : Cell) : Prop :=
  c ≠ .missing ∧ 1 < (pyStrip (cellStr c)).length ∧
    ∀ ch ∈ (pyStrip (cellStr c)).data, pyIsAlpha ch = true ∨ pyIsSpace ch = true

/-- The text of a cell when it holds text, else the empty string (a
helper for naming the image of a successful `Person` construction). -/
def cellText : Cell → String
  | .text s => s
  | _ => ""

/-- The required role keys, in the iteration order of the `keys` dict of
`PersonList.__init__` (`pnr`, `family_name`, `given_name`; `email` is
optional). -/
def requiredKeys : List String := ["pnr", "family_name", "given_name"]

/-- All role keys in dict iteration order. -/
def allKeys : List String := ["pnr", "family_name", "given_name", "email"]

/-- The successful outcomes among the per-column `ValidOr` outcomes
(`columnanalysis_or.res` when set). -/
def successes (outcomes : List (Except Diagnostic ClassifiedColumn)) :
    List ClassifiedColumn :=
  okResults outcomes

/-- The successful outcomes claiming a given role key
(`matching_columns` of `PersonList.__init__`). -/
def columnsFor (outcomes : List (Except Diagnostic ClassifiedColumn)) (key : String) :
    List ClassifiedColumn :=
  (successes outcomes).filter (fun c => c.key = key)

/-- The column bound to a role key by the dict comprehension of line 174:
a later success with the same key overwrites an earlier one, so the
bound column is the last matching success. -/
def assignedColumn (outcomes : List (Except Diagnostic ClassifiedColumn)) (key : String) :
    Option ClassifiedColumn :=
  (columnsFor outcomes key).getLast?

/-- Duplicate-role check of `PersonList.__init__` lines 183-187: for each
required key, more than one successful column claiming it is an error.
(The message is the source's literal string, which lacks the f-prefix.)
Optional keys are not checked. -/
def dupCheck (outcomes : List (Except Diagnostic ClassifiedColumn)) :
    Except PyError Unit :=
  if requiredKeys.all (fun k => (columnsFor outcomes k).length ≤ 1) then .ok ()
  else .error (.validation (.leaf "multiple columns for {key}" none))

/-- Missing-required-role check of `PersonList.__init__` lines 189-193:
the first required key (in dict order) bound to no column raises a
composite diagnostic aggregating the diagnostics of every failed
column. -/
def missingCheck (outcomes : List (Except Diagnostic ClassifiedColumn)) :
    Except PyError Unit :=
  match requiredKeys.find? (fun k => (assignedColumn outcomes k).isNone) with
  | some k =>
      .error (.validation (mkMulti ("not enough data, missing " ++ k) (errResults outcomes)))
  | none => .ok ()

/-- `column_row_sizes`: the original-column lengths of the role-bound
columns, in dict key order. -/
def rowSizes (outcomes : List (Except Diagnostic ClassifiedColumn)) : List Nat :=
  (allKeys.filterMap (assignedColumn outcomes)).map (fun c => c.column.cells.length)

/-- Row-count consistency check of lines 196-198: `min != max` over the
bound columns' lengths, i.e. not all lengths equal, is fatal. -/
def sizeCheck (outcomes : List (Except Diagnostic ClassifiedColumn)) :
    Except PyError Unit :=
  match rowSizes outcomes with
  | [] => .ok ()
  | n :: rest =>
      if rest.all (fun m => m = n) then .ok ()
      else .error (.validation (.leaf "mismatched columns" none))

/-- The found-data assignment loop of `PersonList.__init__` lines
209-210: `rows = rows.assign(**{key: self.columns[key]['column']
.interpretation.found_data})` for every key of the `keys` dict, with no
`'column' in ...` guard (unlike `renamed_column` at lines 201-206). A
key bound to no column — the optional email key whenever the email role
is unassigned — raises a plain dict `KeyError`, a generic exception
outside the Validation family. (The guarded concat of line 207 cannot
fail once the missing-required check has passed.) -/
def assignFoundData (outcomes : List (Except Diagnostic ClassifiedColumn)) :
    Except PyError Unit :=
  match allKeys.find? (fun k => (assignedColumn outcomes k).isNone) with
  | some _ => .error (.generic "KeyError: \x27column\x27")
  | none => .ok ()

/-- The `valid_rows` fold of lines 214-221 over a list of per-column
valid-row sets: start from `None`, then intersect. -/
def foldValidRows (sets : List (Finset Nat)) : Option (Finset Nat) :=
  sets.foldl
    (fun acc s => match acc with | none => some s | some a => some (a ∩ s)) none

/-- The valid-row sets of the columns bound to the given role keys, in
order, fed to the fold. -/
def requiredValidRowsIn (keys : List String)
    (outcomes : List (Except Diagnostic ClassifiedColumn)) : Option (Finset Nat) :=
  foldValidRows (keys.filterMap
    (fun k => (assignedColumn outcomes k).map (fun c => c.valid_rows.toFinset)))

/-- The valid-row intersection over the required role keys in dict
order. -/
def requiredValidRows (outcomes : List (Except Diagnostic ClassifiedColumn)) :
    Option (Finset Nat) :=
  requiredValidRowsIn requiredKeys outcomes

/-- A `Person` record: original row position, normalized identifier,
names, and the optional email value. -/
structure Person where
  index : Nat
  pnr : String
  given_name : Cell
  family_name : Cell
  email : Option Cell
deriving DecidableEq

/-- `Person.__init__` for row position `i` of the assembled `rows` table:
the identifier is the pnr column's found data at `i`, normalized; names
are the name columns' found data at `i`; email is the email column's
found data at `i` when the email role is bound, else `None`. Calling
`.replace` on a non-string found-data value (a NaN of a failed
extraction, only possible outside the valid rows) is a generic
`AttributeError`. -/
def mkPerson (outcomes : List (Except Diagnostic ClassifiedColumn)) (i : Nat) :
    Except PyError Person :=
  match assignedColumn outcomes "pnr", assignedColumn outcomes "given_name",
        assignedColumn outcomes "family_name" with
  | some cp, some cg, some cf =>
      match cp.found_data.getD i .missing with
      | .text s =>
          .ok { index := i, pnr := pnrNormalize s,
                given_name := cg.found_data.getD i .missing,
                family_name := cf.found_data.getD i .missing,
                email := (assignedColumn outcomes "email").map
                  (fun ce => ce.found_data.getD i .missing) }
      | _ => .error (.generic "AttributeError: replace on non-string value")
  | _, _, _ => .error (.generic "KeyError")

/-- `PersonList.__init__` on the per-column `ValidOr` outcomes: duplicate
check, missing-required check, row-count check, the unguarded found-data
assignment loop of lines 209-210, then one `Person` per row position of
the sorted required-role valid-row intersection, in ascending order. -/
def personList (outcomes : List (Except Diagnostic ClassifiedColumn)) :
    Except PyError (List Person) := do
  _ ← dupCheck outcomes
  _ ← missingCheck outcomes
  _ ← sizeCheck outcomes
  _ ← assignFoundData outcomes
  match requiredValidRows outcomes with
  | none => .error (.generic "TypeError: NoneType is not iterable")
  | some vr => (vr.sort (· ≤ ·)).mapM (mkPerson outcomes)

/-- A result table: row count and named columns in order (a pandas
DataFrame with the default RangeIndex). -/
structure Table where
  nrows : Nat
  cols : List (String × List Cell)
deriving DecidableEq

/-- `self.results[key]`: the first column with the given name, if any
(`key in self.results.keys()` then column access). -/
def lookupCol (t : Table) (key : String) : Option (List Cell) :=
  (t.cols.find? (fun p => p.1 = key)).map (fun p => p.2)

/-- `ResultCollector.get_value(row, key)`: `None` when the key names no
column; otherwise `self.results[key][row]` is read — a row label absent
from the column raises a plain `KeyError`, a generic exception — and a
null or empty-string value yields `None`, any other value itself. -/
def get_value (t : Table) (row : Nat) (key : String) :
    Except PyError (Option Cell) :=
  match lookupCol t key with
  | none => .ok none
  | some col =>
      match col[row]? with
      | none => .error (.generic "KeyError")
      | some value =>
          .ok (if value = .missing ∨ value = .text "" then none else some value)

/-- `self.results.assign(**{key: col})`: replace the column named `key`
in place if present, else append it at the end. -/
def assignCol (t : Table) (key : String) (col : List Cell) : Table :=
  if t.cols.any (fun p => p.1 = key) then
    { t with cols := t.cols.map (fun p => if p.1 = key then (key, col) else p) }
  else
    { t with cols := t.cols ++ [(key, col)] }

/-- One iteration of the `set_results` loop for a named value: create the
column filled with the empty string for all rows when absent, then set
the value at `row`. -/
def setOne (t : Table) (row : Nat) (key : String) (v : Cell) : Table :=
  let t1 :=
    if t.cols.any (fun p => p.1 = key) then t
    else assignCol t key (List.replicate t.nrows (.text ""))
  assignCol t1 key (((lookupCol t1 key).getD []).set row v)

/-- `ResultCollector.set_results(row, **new_results)`: apply `setOne` for
each named value in order. (The persistence callback and the print are
I/O and outside the table's value.) -/
def set_results (t : Table) (row : Nat) (vals : List (String × Cell)) : Table :=
  vals.foldl (fun acc kv => setOne acc row kv.1 kv.2) t

/-- The file formats `read_file`/`write_file` dispatch to. -/
inductive FileFormat where
  | excel
  | csv
deriving DecidableEq

/-- Python's `str.endswith`: the pattern is a suffix of the string. -/
def strEndsWith (s p : String) : Bool :=
  s.data.drop (s.data.length - p.data.length) = p.data

/-- Format dispatch of `read_file` (lines 371-380): by filename suffix;
`.xlsx`, `.xls` and `.odf` go to the Excel reader, `.csv` to the CSV
reader, and any other suffix raises the plain generic
`Exception("Unknown input format")` — not a member of the Validation
family. -/
def readFileFormat (path : String) : Except PyError FileFormat :=
  if strEndsWith path ".xlsx" then .ok .excel
  else if strEndsWith path ".xls" then .ok .excel
  else if strEndsWith path ".odf" then .ok .excel
  else if strEndsWith path ".csv" then .ok .csv
  else .error (.generic "Unknown input format")

/-- Format dispatch of `write_file` (lines 382-395): same suffix
dispatch, same plain generic exception on an unrecognized suffix. -/
def writeFileFormat (path : String) : Except PyError FileFormat :=
  if strEndsWith path ".xlsx" then .ok .excel
  else if strEndsWith path ".xls" then .ok .excel
  else if strEndsWith path ".odf" then .ok .excel
  else if strEndsWith path ".csv" then .ok .csv
  else .error (.generic "Unknown input format")

/-! ### Helper lemmas -/

/-- A filter by the hyphen/space predicate leaves a list alone when no
element is a hyphen or a space. -/
theorem stripPnrChars_eq_self {l : List Char} (h : ∀ c ∈ l, c ≠ '-' ∧ c ≠ ' ') :
    stripPnrChars l = l := by
  unfold stripPnrChars
  exact List.filter_eq_self.mpr (fun c hc => by
    rcases h c hc with ⟨h1, h2⟩
    simp [h1, h2])

/-- Every character surviving the hyphen/space strip is neither a hyphen
nor a space. -/
theorem mem_stripPnrChars {l : List Char} {c : Char} (h : c ∈ stripPnrChars l) :
    c ≠ '-' ∧ c ≠ ' ' := by
  unfold stripPnrChars at h
  have := List.of_mem_filter h
  simpa using this

/-- Normalization output characters all come from the stripped input. -/
theorem mem_pnrNormalizeChars {s : List Char} {c : Char}
    (h : c ∈ pnrNormalizeChars s) : c ∈ stripPnrChars s := by
  unfold pnrNormalizeChars at h
  set t := stripPnrChars s with ht
  by_cases h12 : t.length = 12 <;>
    simp only [h12, if_true, if_false, ht] at h <;>
    split at h <;>
    first
      | exact List.mem_of_mem_take h
      | exact h
      | exact List.mem_of_mem_drop (List.mem_of_mem_take h)
      | exact List.mem_of_mem_drop h

/-- The stripped form of a normalization output is itself. -/
theorem stripPnrChars_pnrNormalizeChars (s : List Char) :
    stripPnrChars (pnrNormalizeChars s) = pnrNormalizeChars s :=
  stripPnrChars_eq_self (fun _ hc => mem_stripPnrChars (mem_pnrNormalizeChars hc))

/-- A normalization output never has length 12, and when it has length
10 its characters 6-7 are never "TF". -/
theorem pnrNormalizeChars_shape (s : List Char) :
    (pnrNormalizeChars s).length ≠ 12 ∧
      ((pnrNormalizeChars s).length = 10 →
        ((pnrNormalizeChars s).drop 6).take 2 ≠ ['T', 'F']) := by
  simp only [pnrNormalizeChars]
  set t := stripPnrChars s with ht
  set t2 := if t.length = 12 then t.drop 2 else t with ht2
  have hlen2 : t2.length ≠ 12 := by
    rw [ht2]
    split
    · rename_i h
      rw [List.length_drop]
      omega
    · assumption
  by_cases hc : t2.length = 10 ∧ (t2.drop 6).take 2 = ['T', 'F']
  · rw [if_pos hc]
    obtain ⟨hc1, _⟩ := hc
    have h6 : (t2.take 6).length = 6 := by
      rw [List.length_take]
      omega
    refine ⟨by omega, fun h10 => ?_⟩
    exact absurd (h6.symm.trans h10) (by decide)
  · rw [if_neg hc]
    exact ⟨hlen2, fun h10 hTF => hc ⟨h10, hTF⟩⟩

/-- Normalization is the identity on a value that is already stripped,
not of length 12, and without the length-10 "TF" shape. -/
theorem pnrNormalizeChars_eq_self {u : List Char} (h0 : stripPnrChars u = u)
    (h1 : u.length ≠ 12) (h2 : u.length = 10 → (u.drop 6).take 2 ≠ ['T', 'F']) :
    pnrNormalizeChars u = u := by
  simp only [pnrNormalizeChars]
  rw [h0, if_neg h1, if_neg ?_]
  rintro ⟨ha, hb⟩
  exact h2 ha hb

/-- Identifier normalization is idempotent on every character list. -/
theorem pnrNormalizeChars_idem (s : List Char) :
    pnrNormalizeChars (pnrNormalizeChars s) = pnrNormalizeChars s := by
  obtain ⟨h1, h2⟩ := pnrNormalizeChars_shape s
  exact pnrNormalizeChars_eq_self (stripPnrChars_pnrNormalizeChars s) h1 h2

/-- C5: the identifier normalization applied at `Person` construction
strips hyphens and spaces, drops the first two characters of a length-12
result, truncates a length-10 result with "TF" at positions 6-7 to its
first 6 characters (the definition `pnrNormalize`), and is idempotent —
in particular, normalizing a 6-digit identifier twice yields the same
6-digit identifier, which normalization leaves unchanged. -/
theorem pnr_normalization_idempotent :
    (∀ s : String, pnrNormalize (pnrNormalize s) = pnrNormalize s) ∧
    (∀ s : String, s.data.length = 6 → (∀ c ∈ s.data, c.isDigit) →
      pnrNormalize (pnrNormalize s) = pnrNormalize s ∧ pnrNormalize s = s) := by
  have hfix : ∀ s : String, s.data.length = 6 → (∀ c ∈ s.data, c.isDigit) →
      pnrNormalize s = s := by
    intro s h6 hdig
    have h0 : stripPnrChars s.data = s.data := by
      refine stripPnrChars_eq_self (fun c hc => ?_)
      have hd := hdig c hc
      constructor
      · intro heq
        rw [heq] at hd
        simp [Char.isDigit] at hd
      · intro heq
        rw [heq] at hd
        simp [Char.isDigit] at hd
    show String.mk (pnrNormalizeChars s.data) = s
    rw [pnrNormalizeChars_eq_self h0 (by omega) (by omega)]
  constructor
  · intro s
    show String.mk (pnrNormalizeChars (pnrNormalize s).data) = pnrNormalize s
    show String.mk (pnrNormalizeChars (pnrNormalizeChars s.data)) = pnrNormalize s
    rw [pnrNormalizeChars_idem]
    rfl
  · intro s h6 hdig
    rw [hfix s h6 hdig, hfix s h6 hdig]
    exact ⟨rfl, rfl⟩

/-- C5 witness: the 6-digit identifier "900101" is normalized to itself,
twice. -/
theorem pnr_normalization_idempotent_witness :
    pnrNormalize (pnrNormalize "900101") = pnrNormalize "900101" ∧
      pnrNormalize "900101" = "900101" :=
  pnr_normalization_idempotent.2 "900101" (by decide) (by decide)

/-- Deduplication only keeps elements of the input. -/
theorem mem_dedupByMessage {x : Diagnostic} :
    ∀ {l : List Diagnostic}, x ∈ dedupByMessage l → x ∈ l := by
  intro l
  induction l using dedupByMessage.induct with
  | case1 =>
      intro h
      simp [dedupByMessage] at h
  | case2 a as ih =>
      intro h
      rw [dedupByMessage] at h
      rcases List.mem_cons.mp h with h | h
      · simp [h]
      · exact List.mem_cons_of_mem _ (List.mem_of_mem_filter (ih h))

/-- Deduplication preserves the set of rendered texts. -/
theorem dedupByMessage_message_mem {m : String} :
    ∀ {l : List Diagnostic},
      (∃ e ∈ dedupByMessage l, e.long_message = m) ↔ ∃ e ∈ l, e.long_message = m := by
  intro l
  induction l using dedupByMessage.induct with
  | case1 => simp [dedupByMessage]
  | case2 a as ih =>
      rw [dedupByMessage]
      constructor
      · rintro ⟨e, he, hm⟩
        rcases List.mem_cons.mp he with rfl | he'
        · exact ⟨e, List.mem_cons_self _ _, hm⟩
        · obtain ⟨f, hf, hfm⟩ := ih.mp ⟨e, he', hm⟩
          exact ⟨f, List.mem_cons_of_mem _ (List.mem_of_mem_filter hf), hfm⟩
      · rintro ⟨e, he, hm⟩
        rcases List.mem_cons.mp he with rfl | he'
        · exact ⟨e, List.mem_cons_self _ _, hm⟩
        · by_cases hme : e.long_message = a.long_message
          · exact ⟨a, List.mem_cons_self _ _, by rw [← hm, hme]⟩
          · have hfe : e ∈ as.filter (fun x => ¬ x.long_message = a.long_message) :=
              List.mem_filter.mpr ⟨he', by simpa using hme⟩
            obtain ⟨f, hf, hfm⟩ := ih.mpr ⟨e, hfe, hm⟩
            exact ⟨f, List.mem_cons_of_mem _ hf, hfm⟩

/-- After deduplication, rendered texts are pairwise distinct. -/
theorem dedupByMessage_message_nodup :
    ∀ (l : List Diagnostic), ((dedupByMessage l).map Diagnostic.long_message).Nodup := by
  intro l
  induction l using dedupByMessage.induct with
  | case1 => simp [dedupByMessage]
  | case2 a as ih =>
      rw [dedupByMessage]
      simp only [List.map_cons, List.nodup_cons]
      refine ⟨?_, ih⟩
      intro hmem
      obtain ⟨e, he, hm⟩ := List.mem_map.mp hmem
      have := List.of_mem_filter (mem_dedupByMessage he)
      simp only [decide_not, Bool.not_eq_true', decide_eq_false_iff_not] at this
      exact this hm

/-- The sorting step is a permutation. -/
theorem sortByMessage_perm (l : List Diagnostic) : (sortByMessage l).Perm l :=
  List.perm_insertionSort _ l

/-- The children list a `MultiValidationException` ends up with: same
message, pairwise-distinct rendered texts, and exactly the input's set
of rendered texts. -/
theorem mkMulti_children (msg : String) (children : List Diagnostic) :
    ∃ cs, mkMulti msg children = .multi msg cs ∧
      (cs.map Diagnostic.long_message).Nodup ∧
      ∀ m, m ∈ cs.map Diagnostic.long_message ↔
        m ∈ children.map Diagnostic.long_message := by
  refine ⟨sortByMessage (dedupByMessage children), rfl, ?_, ?_⟩
  · have hperm := (sortByMessage_perm (dedupByMessage children)).map Diagnostic.long_message
    exact hperm.nodup_iff.mpr (dedupByMessage_message_nodup children)
  · intro m
    have hperm := (sortByMessage_perm (dedupByMessage children)).map Diagnostic.long_message
    rw [hperm.mem_iff]
    constructor
    · intro h
      obtain ⟨e, he, hm⟩ := List.mem_map.mp h
      obtain ⟨f, hf, hfm⟩ := dedupByMessage_message_mem.mp ⟨e, he, hm⟩
      exact List.mem_map.mpr ⟨f, hf, hfm⟩
    · intro h
      obtain ⟨e, he, hm⟩ := List.mem_map.mp h
      obtain ⟨f, hf, hfm⟩ := dedupByMessage_message_mem.mpr ⟨e, he, hm⟩
      exact List.mem_map.mpr ⟨f, hf, hfm⟩

/-- C8: two Validation diagnostics compare equal iff their full rendered
(indented, depth-first) texts are equal, and a composite diagnostic
built from a list of child diagnostics folds children with duplicate
rendered text into a single occurrence before aggregation. -/
theorem diagnostic_equality_and_dedup :
    (∀ a b : Diagnostic, a.beqRendered b = true ↔ a.long_message = b.long_message) ∧
    (∀ msg children, ∃ cs, mkMulti msg children = .multi msg cs ∧
      (cs.map Diagnostic.long_message).Nodup ∧
      ∀ m, m ∈ cs.map Diagnostic.long_message ↔
        m ∈ children.map Diagnostic.long_message) := by
  constructor
  · intro a b
    simp [Diagnostic.beqRendered]
  · exact mkMulti_children

/-- C3: over a fixed ordered list of independent `ValidOr` attempts (as
instantiated by the four column classifiers over one column and by the
header-row offsets 0..3 over one file), exactly one success yields that
success's result; zero successes raises a composite diagnostic whose
children carry exactly the rendered texts of all per-attempt
diagnostics; more than one success raises a flat non-composite
diagnostic carrying none of the attempt diagnostics. -/
theorem arbitration_exactly_one {α : Type} (attempts : List (Except Diagnostic α)) :
    (∀ a, okResults attempts = [a] →
      findOne attempts = .ok a ∧ fileAnalysisArbitrate attempts = .ok a) ∧
    (okResults attempts = [] →
      (∃ ds, findOne attempts =
          .error (.validation (.multi "No valid interpretatons" ds)) ∧
        ∀ m, m ∈ ds.map Diagnostic.long_message ↔
          m ∈ (errResults attempts).map Diagnostic.long_message) ∧
      (∃ ds, fileAnalysisArbitrate attempts =
          .error (.validation
            (.multi "No valid interpretatons as a file with a header column" ds)) ∧
        ∀ m, m ∈ ds.map Diagnostic.long_message ↔
          m ∈ (errResults attempts).map Diagnostic.long_message)) ∧
    (2 ≤ (okResults attempts).length →
      findOne attempts =
          .error (.validation (.leaf "Too many valid interpretatons" none)) ∧
      fileAnalysisArbitrate attempts =
          .error (.validation (.leaf "Too many valid interpretatons" none))) := by
  refine ⟨?_, ?_, ?_⟩
  · intro a h
    unfold findOne fileAnalysisArbitrate
    rw [h]
    exact ⟨rfl, rfl⟩
  · intro h
    unfold findOne fileAnalysisArbitrate
    rw [h]
    constructor
    · obtain ⟨cs, hcs, hnd, hmem⟩ :=
        mkMulti_children "No valid interpretatons" (errResults attempts)
      exact ⟨cs, by rw [hcs], hmem⟩
    · obtain ⟨cs, hcs, hnd, hmem⟩ :=
        mkMulti_children "No valid interpretatons as a file with a header column"
          (errResults attempts)
      exact ⟨cs, by rw [hcs], hmem⟩
  · intro h
    unfold findOne fileAnalysisArbitrate
    match hh : okResults attempts with
    | [] => rw [hh] at h; simp at h
    | [a] => rw [hh] at h; simp at h
    | a :: b :: rest => exact ⟨rfl, rfl⟩

/-- C3 witness: concrete arbitrations with one, zero, and two successful
attempts. -/
theorem arbitration_exactly_one_witness :
    (findOne [Except.error (Diagnostic.leaf "m1" none), Except.ok 7] = .ok 7 ∧
      fileAnalysisArbitrate [Except.error (Diagnostic.leaf "m1" none), Except.ok 7] =
        .ok 7) ∧
    (∃ ds, findOne ([Except.error (Diagnostic.leaf "m1" none),
        Except.error (Diagnostic.leaf "m2" none)] : List (Except Diagnostic Nat)) =
        .error (.validation (.multi "No valid interpretatons" ds)) ∧
      ∀ m, m ∈ ds.map Diagnostic.long_message ↔
        m ∈ (errResults ([Except.error (Diagnostic.leaf "m1" none),
          Except.error (Diagnostic.leaf "m2" none)] :
            List (Except Diagnostic Nat))).map Diagnostic.long_message) ∧
    (findOne ([Except.ok 1, Except.ok 2] : List (Except Diagnostic Nat)) =
      .error (.validation (.leaf "Too many valid interpretatons" none))) :=
  ⟨(arbitration_exactly_one _).1 7 rfl,
    ((arbitration_exactly_one ([Except.error (Diagnostic.leaf "m1" none),
        Except.error (Diagnostic.leaf "m2" none)] :
          List (Except Diagnostic Nat))).2.1 rfl).1,
    ((arbitration_exactly_one [Except.ok 1, Except.ok 2]).2.2 (by decide)).1⟩

/-- C2 counterexample: the "Unknown file format" failure of the error
taxonomy is raised by `read_file` and `write_file` as a plain generic
`Exception`, not as a member of the Validation family — refuting the
claim that every taxonomy failure surfaces inside that family. -/
theorem unknown_format_outside_validation_family :
    readFileFormat "roster.txt" = .error (.generic "Unknown input format") ∧
    writeFileFormat "roster.txt" = .error (.generic "Unknown input format") ∧
    (PyError.generic "Unknown input format").isValidation = false :=
  ⟨rfl, rfl, rfl⟩

/-- C2 amended: every modeled failure of the taxonomy except "Unknown
file format" is raised inside the Validation family (arbitration,
duplicate-role, missing-role, row-count, and classifier content/header
failures on nonempty columns), while the unknown-suffix failure of
`read_file` and `write_file` is a plain generic exception outside the
family. -/
theorem error_family_amended :
    (∀ (α : Type) (attempts : List (Except Diagnostic α)) (e : PyError),
      findOne attempts = .error e → e.isValidation = true) ∧
    (∀ (α : Type) (attempts : List (Except Diagnostic α)) (e : PyError),
      fileAnalysisArbitrate attempts = .error e → e.isValidation = true) ∧
    (∀ outcomes e, dupCheck outcomes = .error e → e.isValidation = true) ∧
    (∀ outcomes e, missingCheck outcomes = .error e → e.isValidation = true) ∧
    (∀ outcomes e, sizeCheck outcomes = .error e → e.isValidation = true) ∧
    (∀ key mf col e, col.cells ≠ [] →
      nameColumnClassify key mf col = .error e → e.isValidation = true) ∧
    (∀ path e, readFileFormat path = .error e → e.isValidation = false) ∧
    (∀ path e, writeFileFormat path = .error e → e.isValidation = false) := by
  refine ⟨?_, ?_, ?_, ?_, ?_, ?_, ?_, ?_⟩
  · intro α attempts e h
    unfold findOne at h
    split at h
    · injection h with h
      subst h
      rfl
    · exact Except.noConfusion h
    · injection h with h
      subst h
      rfl
  · intro α attempts e h
    unfold fileAnalysisArbitrate at h
    split at h
    · injection h with h
      subst h
      rfl
    · exact Except.noConfusion h
    · injection h with h
      subst h
      rfl
  · intro outcomes e h
    unfold dupCheck at h
    split at h
    · exact Except.noConfusion h
    · injection h with h
      subst h
      rfl
  · intro outcomes e h
    unfold missingCheck at h
    split at h
    · injection h with h
      subst h
      rfl
    · exact Except.noConfusion h
  · intro outcomes e h
    unfold sizeCheck at h
    split at h
    · exact Except.noConfusion h
    · split at h
      · exact Except.noConfusion h
      · injection h with h
        subst h
        rfl
  · intro key mf col e hne h
    simp only [nameColumnClassify] at h
    split at h
    · injection h with h
      subst h
      rfl
    · split at h
      · rename_i hlen
        exact absurd (List.eq_nil_of_length_eq_zero hlen) hne
      · split at h
        · injection h with h
          subst h
          rfl
        · exact Except.noConfusion h
  · intro path e h
    unfold readFileFormat at h
    split at h
    · exact Except.noConfusion h
    · split at h
      · exact Except.noConfusion h
      · split at h
        · exact Except.noConfusion h
        · split at h
          · exact Except.noConfusion h
          · injection h with h
            subst h
            rfl
  · intro path e h
    unfold writeFileFormat at h
    split at h
    · exact Except.noConfusion h
    · split at h
      · exact Except.noConfusion h
      · split at h
        · exact Except.noConfusion h
        · split at h
          · exact Except.noConfusion h
          · injection h with h
            subst h
            rfl

/-- C2 amended witness: a concrete Validation failure from arbitration
and a concrete generic failure from format dispatch. -/
theorem error_family_amended_witness :
    (PyError.validation
      (mkMulti "No valid interpretatons"
        (errResults ([] : List (Except Diagnostic Nat))))).isValidation = true ∧
    (PyError.generic "Unknown input format").isValidation = false :=
  ⟨error_family_amended.1 Nat [] _ rfl,
    error_family_amended.2.2.2.2.2.2.1 "roster.txt" _ rfl⟩

/-- The implementation's per-row predicate `istext` agrees with the
spec-level row-validity predicate for name columns. -/
theorem istext_iff_spec (c : Cell) : istext c = true ↔ specValidNameCell c := by
  cases c with
  | missing => simp [istext, specValidNameCell]
  | text s =>
      simp only [istext, specValidNameCell, ne_eq, Bool.and_eq_true, decide_eq_true_eq,
        List.all_eq_true, Bool.or_eq_true]
      constructor
      · rintro ⟨h1, h2⟩
        exact ⟨by simp, h1, h2⟩
      · rintro ⟨-, h1, h2⟩
        exact ⟨h1, h2⟩
  | num n =>
      simp only [istext, specValidNameCell, ne_eq, Bool.and_eq_true, decide_eq_true_eq,
        List.all_eq_true, Bool.or_eq_true]
      constructor
      · rintro ⟨h1, h2⟩
        exact ⟨by simp, h1, h2⟩
      · rintro ⟨-, h1, h2⟩
        exact ⟨h1, h2⟩

/-- C6: for every column whose header matches a name-role pattern and
which has rows, a row is valid iff its cell, after trimming, is
non-missing, longer than one character, and all alphabetic or spaces
(`specValidNameCell`); classification fails iff under 80% of all rows
are valid. Concretely, a column headed "Efternamn" with values
Svensson, Löf, ?!, Berg (3/4 valid) fails family-name classification,
and with ?! replaced by Ek (4/4) succeeds. -/
theorem name_column_classification :
    (∀ (key : String) (mf : String → Bool) (col : Column),
      mf (pyStrip col.name) = true → col.cells ≠ [] →
      ((∃ cc, nameColumnClassify key mf col = .ok cc) ↔
        80 * col.cells.length ≤
          100 * ((List.range col.cells.length).filter
            (fun i => istext (col.cells.getD i Cell.missing))).length) ∧
      (∀ cc, nameColumnClassify key mf col = .ok cc →
        ∀ i, i ∈ cc.valid_rows ↔
          i < col.cells.length ∧ specValidNameCell (col.cells.getD i Cell.missing))) ∧
    familyNameColumn
        ⟨"Efternamn", [.text "Svensson", .text "Löf", .text "?!", .text "Berg"]⟩ =
      .error (.validation
        (.leaf "Content of column \x27Efternamn\x27 is not mostly alphabetical" none)) ∧
    familyNameColumn
        ⟨"Efternamn", [.text "Svensson", .text "Löf", .text "Ek", .text "Berg"]⟩ =
      .ok { key := "family_name",
            column :=
              ⟨"Efternamn", [.text "Svensson", .text "Löf", .text "Ek", .text "Berg"]⟩,
            found_data := [.text "Svensson", .text "Löf", .text "Ek", .text "Berg"],
            valid_rows := [0, 1, 2, 3] } := by
  refine ⟨?_, rfl, rfl⟩
  intro key mf col hmatch hne
  have hlen : ¬ col.cells.length = 0 := fun h => hne (List.eq_nil_of_length_eq_zero h)
  constructor
  · simp only [nameColumnClassify, if_neg (not_not_intro hmatch), if_neg hlen]
    by_cases hr : 100 * ((List.range col.cells.length).filter
        (fun i => istext (col.cells.getD i Cell.missing))).length < 80 * col.cells.length
    · rw [if_pos hr]
      constructor
      · rintro ⟨cc, hcc⟩
        exact Except.noConfusion hcc
      · intro hge
        omega
    · rw [if_neg hr]
      constructor
      · intro _
        omega
      · intro _
        exact ⟨_, rfl⟩
  · intro cc hcc i
    simp only [nameColumnClassify, if_neg (not_not_intro hmatch), if_neg hlen] at hcc
    split at hcc
    · exact Except.noConfusion hcc
    · injection hcc with hcc
      subst hcc
      simp only [List.mem_filter, List.mem_range]
      rw [istext_iff_spec]

/-- C6 witness: the 100%-valid "Efternamn" column classifies
successfully via the general ratio criterion. -/
theorem name_column_classification_witness :
    ∃ cc, nameColumnClassify "family_name" familyNameMatch
        ⟨"Efternamn", [.text "Svensson", .text "Löf", .text "Ek", .text "Berg"]⟩ =
      .ok cc :=
  ((name_column_classification.1 "family_name" familyNameMatch
      ⟨"Efternamn", [.text "Svensson", .text "Löf", .text "Ek", .text "Berg"]⟩
      (by decide) (by decide)).1).mpr (by decide)

/-- Replacing the column named `k` makes it what `find?` returns for
`k`, provided some column named `k` exists. -/
theorem find?_map_set (l : List (String × List Cell)) (k : String) (col : List Cell)
    (h : l.any (fun p => p.1 = k) = true) :
    (l.map (fun p => if p.1 = k then (k, col) else p)).find? (fun p => p.1 = k) =
      some (k, col) := by
  induction l with
  | nil => simp at h
  | cons p ps ih =>
      simp only [List.map_cons]
      by_cases hp : p.1 = k
      · rw [if_pos hp]
        exact List.find?_cons_of_pos _ (by simp)
      · rw [if_neg hp, List.find?_cons_of_neg _ (by simpa using hp)]
        apply ih
        simp only [List.any_cons, Bool.or_eq_true, decide_eq_true_eq] at h
        rcases h with h | h
        · exact absurd h hp
        · exact h

/-- Replacing the column named `k` leaves `find?` for any other name
unchanged. -/
theorem find?_map_ne (l : List (String × List Cell)) (k : String) (col : List Cell)
    (k' : String) (h : k' ≠ k) :
    (l.map (fun p => if p.1 = k then (k, col) else p)).find? (fun p => p.1 = k') =
      l.find? (fun p => p.1 = k') := by
  induction l with
  | nil => rfl
  | cons p ps ih =>
      simp only [List.map_cons]
      by_cases hp : p.1 = k
      · rw [if_pos hp,
          List.find?_cons_of_neg _ (by simp; exact fun hh => h hh.symm),
          List.find?_cons_of_neg _ (by simp [hp]; exact fun hh => h hh.symm), ih]
      · rw [if_neg hp]
        by_cases hpk : p.1 = k'
        · rw [List.find?_cons_of_pos _ (by simpa using hpk),
            List.find?_cons_of_pos _ (by simpa using hpk)]
        · rw [List.find?_cons_of_neg _ (by simpa using hpk),
            List.find?_cons_of_neg _ (by simpa using hpk), ih]

/-- A name absent from the table looks up to nothing. -/
theorem lookupCol_eq_none (t : Table) (k : String)
    (h : ¬ t.cols.any (fun p => p.1 = k) = true) :
    lookupCol t k = none := by
  unfold lookupCol
  rw [List.find?_eq_none.mpr ?_]
  · rfl
  · intro x hx hpx
    exact h (List.any_eq_true.mpr ⟨x, hx, hpx⟩)

/-- A name present in the table looks up to some column. -/
theorem lookupCol_eq_some_of_any (t : Table) (k : String)
    (h : t.cols.any (fun p => p.1 = k) = true) :
    ∃ col, lookupCol t k = some col := by
  unfold lookupCol
  have hs : (t.cols.find? (fun p => decide (p.1 = k))).isSome := by
    rw [List.find?_isSome]
    simpa using h
  obtain ⟨pr, hpr⟩ := Option.isSome_iff_exists.mp hs
  exact ⟨pr.2, by rw [hpr]; rfl⟩

/-- A looked-up column is one of the table's columns. -/
theorem lookupCol_mem (t : Table) (k : String) (col : List Cell)
    (h : lookupCol t k = some col) : ∃ p ∈ t.cols, p.2 = col := by
  unfold lookupCol at h
  cases hf : t.cols.find? (fun p => decide (p.1 = k)) with
  | none => rw [hf] at h; simp at h
  | some pr =>
      rw [hf] at h
      injection h with h
      exact ⟨pr, List.mem_of_find?_eq_some hf, h⟩

/-- `assign` with a key returns a table where that key looks up to the
assigned column. -/
theorem lookupCol_assignCol_self (t : Table) (k : String) (col : List Cell) :
    lookupCol (assignCol t k col) k = some col := by
  unfold assignCol
  split
  · rename_i hany
    unfold lookupCol
    rw [find?_map_set t.cols k col hany]
    rfl
  · rename_i hany
    unfold lookupCol
    have hnone : t.cols.find? (fun p => decide (p.1 = k)) = none := by
      rw [List.find?_eq_none]
      intro x hx hpx
      exact hany (List.any_eq_true.mpr ⟨x, hx, hpx⟩)
    rw [List.find?_append, hnone]
    simp

/-- `assign` with a key leaves every other key's lookup unchanged. -/
theorem lookupCol_assignCol_ne (t : Table) (k : String) (col : List Cell)
    (k' : String) (h : k' ≠ k) :
    lookupCol (assignCol t k col) k' = lookupCol t k' := by
  unfold assignCol
  split
  · unfold lookupCol
    rw [find?_map_ne t.cols k col k' h]
  · unfold lookupCol
    rw [List.find?_append]
    have hsing : ([(k, col)].find? (fun p => decide (p.1 = k'))) = none := by
      rw [List.find?_eq_none]
      intro x hx
      simp only [List.mem_singleton] at hx
      subst hx
      simp
      exact fun hh => h hh.symm
    rw [hsing]
    cases t.cols.find? (fun p => decide (p.1 = k')) <;> rfl

/-- `assign` preserves the row count. -/
theorem assignCol_nrows (t : Table) (k : String) (col : List Cell) :
    (assignCol t k col).nrows = t.nrows := by
  unfold assignCol
  split <;> rfl

/-- One `set_results` iteration preserves the row count. -/
theorem setOne_nrows (t : Table) (row : Nat) (k : String) (v : Cell) :
    (setOne t row k v).nrows = t.nrows := by
  simp only [setOne]
  rw [assignCol_nrows]
  split
  · rfl
  · rw [assignCol_nrows]

/-- After one `set_results` iteration for `k`, the column at `k` is the
previous column (or the fresh empty-string fill) with `v` set at `row`. -/
theorem lookupCol_setOne_self (t : Table) (row : Nat) (k : String) (v : Cell) :
    lookupCol (setOne t row k v) k =
      some (((lookupCol t k).getD (List.replicate t.nrows (Cell.text ""))).set row v) := by
  simp only [setOne]
  by_cases hany : t.cols.any (fun p => p.1 = k) = true
  · rw [if_pos hany, lookupCol_assignCol_self]
    obtain ⟨col0, hcol0⟩ := lookupCol_eq_some_of_any t k hany
    rw [hcol0]
    rfl
  · rw [if_neg hany]
    have hnone := lookupCol_eq_none t k hany
    rw [lookupCol_assignCol_self, lookupCol_assignCol_self, hnone]
    rfl

/-- One `set_results` iteration leaves every other key's lookup
unchanged. -/
theorem lookupCol_setOne_ne (t : Table) (row : Nat) (k : String) (v : Cell)
    (k' : String) (h : k' ≠ k) :
    lookupCol (setOne t row k v) k' = lookupCol t k' := by
  simp only [setOne]
  split
  · rw [lookupCol_assignCol_ne _ _ _ _ h]
  · rw [lookupCol_assignCol_ne _ _ _ _ h, lookupCol_assignCol_ne _ _ _ _ h]

/-- `set_results` preserves the row count. -/
theorem set_results_nrows (row : Nat) (vals : List (String × Cell)) :
    ∀ t : Table, (set_results t row vals).nrows = t.nrows := by
  induction vals with
  | nil => intro t; rfl
  | cons kv rest ih =>
      intro t
      show (set_results (setOne t row kv.1 kv.2) row rest).nrows = t.nrows
      rw [ih, setOne_nrows]

/-- `set_results` leaves the lookup of every key not named in the call
unchanged. -/
theorem lookupCol_set_results_of_ne (row : Nat) (vals : List (String × Cell))
    (k' : String) :
    ∀ t : Table, (∀ kv ∈ vals, kv.1 ≠ k') →
      lookupCol (set_results t row vals) k' = lookupCol t k' := by
  induction vals with
  | nil => intro t _; rfl
  | cons kv rest ih =>
      intro t h
      show lookupCol (set_results (setOne t row kv.1 kv.2) row rest) k' = _
      rw [ih _ (fun kv' hkv' => h kv' (List.mem_cons_of_mem _ hkv')),
        lookupCol_setOne_ne]
      exact Ne.symm (h kv (List.mem_cons_self _ _))

/-- `set_results` with pairwise-distinct keys: each named key looks up
to its previous column (or the fresh empty-string fill) with the named
value set at `row`. -/
theorem lookupCol_set_results_of_mem (row : Nat) (vals : List (String × Cell)) :
    ∀ t : Table, (vals.map Prod.fst).Nodup →
      ∀ k v, (k, v) ∈ vals →
      lookupCol (set_results t row vals) k =
        some (((lookupCol t k).getD (List.replicate t.nrows (Cell.text ""))).set row v) := by
  induction vals with
  | nil =>
      intro t _ k v h
      simp at h
  | cons kv rest ih =>
      intro t hnd k v hmem
      simp only [List.map_cons, List.nodup_cons] at hnd
      show lookupCol (set_results (setOne t row kv.1 kv.2) row rest) k = _
      rcases List.mem_cons.mp hmem with heq | hmem'
      · have hk1 : k = kv.1 := congrArg Prod.fst heq
        have hrest : ∀ kv' ∈ rest, kv'.1 ≠ k := by
          intro kv' hkv' heqk
          have hkk : kv'.1 = kv.1 := heqk.trans hk1
          exact hnd.1 (hkk ▸ List.mem_map_of_mem Prod.fst hkv')
        rw [lookupCol_set_results_of_ne row rest k _ hrest]
        cases heq
        exact lookupCol_setOne_self t row k v
      · have hk2 : k ≠ kv.1 := by
          intro heqk
          exact hnd.1 (heqk ▸ List.mem_map_of_mem Prod.fst hmem')
        rw [ih _ hnd.2 k v hmem', lookupCol_setOne_ne _ _ _ _ _ hk2, setOne_nrows]

/-- C9: for every `set_results(row, **named_values)` call with distinct
names on a well-formed table, each named column absent from the table is
created filled with the empty string and then gets the named value at
`row`; each named pre-existing column keeps every row other than `row`
unchanged; and every column not named in the call is unchanged. -/
theorem set_results_spec (t : Table) (row : Nat) (vals : List (String × Cell))
    (hnd : (vals.map Prod.fst).Nodup)
    (hwf : ∀ p ∈ t.cols, p.2.length = t.nrows) (hrow : row < t.nrows) :
    (∀ k v, (k, v) ∈ vals →
      ∃ col', lookupCol (set_results t row vals) k = some col' ∧
        col' = ((lookupCol t k).getD (List.replicate t.nrows (Cell.text ""))).set row v ∧
        col'.getD row Cell.missing = v ∧
        ∀ r, r ≠ row → col'.getD r Cell.missing =
          ((lookupCol t k).getD (List.replicate t.nrows (Cell.text ""))).getD r
            Cell.missing) ∧
    (∀ k', (∀ kv ∈ vals, kv.1 ≠ k') →
      lookupCol (set_results t row vals) k' = lookupCol t k') := by
  constructor
  · intro k v hmem
    refine ⟨_, lookupCol_set_results_of_mem row vals t hnd k v hmem, rfl, ?_, ?_⟩
    · have hlen :
          ((lookupCol t k).getD (List.replicate t.nrows (Cell.text ""))).length =
            t.nrows := by
        cases hl : lookupCol t k with
        | none => simp
        | some col =>
            obtain ⟨p, hp, hpc⟩ := lookupCol_mem t k col hl
            simp only [Option.getD_some]
            rw [← hpc]
            exact hwf p hp
      rw [List.getD_eq_getElem?_getD, List.getElem?_set_self (by omega)]
      rfl
    · intro r hr
      rw [List.getD_eq_getElem?_getD, List.getElem?_set_ne (Ne.symm hr),
        ← List.getD_eq_getElem?_getD]
  · exact fun k' h => lookupCol_set_results_of_ne row vals k' t h

/-- C9 witness: a concrete call creating a fresh column "b" on a 2-row
table leaves the pre-existing column "a" untouched. -/
theorem set_results_spec_witness :
    lookupCol
        (set_results ⟨2, [("a", [Cell.text "x", Cell.text "y"])]⟩ 1
          [("b", Cell.text "v")]) "a" =
      lookupCol ⟨2, [("a", [Cell.text "x", Cell.text "y"])]⟩ "a" :=
  (set_results_spec ⟨2, [("a", [Cell.text "x", Cell.text "y"])]⟩ 1
      [("b", Cell.text "v")] (by decide) (by decide) (by decide)).2 "a" (by decide)

/-- `get_value` when the key names no column: `None`. -/
theorem get_value_of_lookup_none {t : Table} {row : Nat} {key : String}
    (h : lookupCol t key = none) : get_value t row key = .ok none := by
  unfold get_value
  rw [h]

/-- `get_value` when the key names a column: the row is read from that
column, raising `KeyError` outside its range. -/
theorem get_value_of_lookup_some {t : Table} {row : Nat} {key : String}
    {col : List Cell} (h : lookupCol t key = some col) :
    get_value t row key =
      match col[row]? with
      | none => Except.error (PyError.generic "KeyError")
      | some value =>
          Except.ok (if value = Cell.missing ∨ value = Cell.text "" then none
            else some value) := by
  unfold get_value
  rw [h]

/-- C10: for every read of a row present in the column, `get_value(row,
key)` returns `None` iff the key names no column, or the stored cell is
null, or it is the empty string; otherwise it returns the stored cell.
A row outside a looked-up column raises a plain `KeyError`. Within
range, an empty-string fill freshly written by `set_results` is
indistinguishable through `get_value` from a column that does not
exist. -/
theorem get_value_spec (t : Table) (row : Nat) (key : String) :
    (get_value t row key = .ok none ↔
      lookupCol t key = none ∨
        ∃ col v, lookupCol t key = some col ∧ col[row]? = some v ∧
          (v = Cell.missing ∨ v = Cell.text "")) ∧
    (∀ v, get_value t row key = .ok (some v) ↔
      ∃ col, lookupCol t key = some col ∧ col[row]? = some v ∧
        v ≠ Cell.missing ∧ v ≠ Cell.text "") ∧
    (∀ col, lookupCol t key = some col → col.length ≤ row →
      get_value t row key = .error (.generic "KeyError")) ∧
    (∀ (t2 : Table) (v : Cell) (r : Nat), lookupCol t2 key = none →
      r ≠ row → r < t2.nrows →
      get_value (set_results t2 row [(key, v)]) r key = .ok none ∧
        get_value t2 r key = .ok none) := by
  refine ⟨?_, ?_, ?_, ?_⟩
  · cases hl : lookupCol t key with
    | none =>
        rw [get_value_of_lookup_none hl]
        simp
    | some col =>
        rw [get_value_of_lookup_some hl]
        cases hcr : col[row]? with
        | none =>
            refine iff_of_false (by simp) ?_
            rintro (h | ⟨col2, v2, hc2, hv2, hd2⟩)
            · exact Option.noConfusion h
            · injection hc2 with hc2
              subst hc2
              rw [hcr] at hv2
              exact Option.noConfusion hv2
        | some value =>
            show Except.ok (if value = Cell.missing ∨ value = Cell.text "" then none
              else some value) = Except.ok none ↔ _
            by_cases hcond : value = Cell.missing ∨ value = Cell.text ""
            · rw [if_pos hcond]
              exact iff_of_true rfl (Or.inr ⟨col, value, rfl, hcr, hcond⟩)
            · rw [if_neg hcond]
              refine iff_of_false (by simp) ?_
              rintro (h | ⟨col2, v2, hc2, hv2, hd2⟩)
              · exact Option.noConfusion h
              · injection hc2 with hc2
                subst hc2
                rw [hcr] at hv2
                injection hv2 with hv2
                subst hv2
                exact hcond hd2
  · intro v
    cases hl : lookupCol t key with
    | none =>
        rw [get_value_of_lookup_none hl]
        simp
    | some col =>
        rw [get_value_of_lookup_some hl]
        cases hcr : col[row]? with
        | none =>
            refine iff_of_false (by simp) ?_
            rintro ⟨col2, hc2, hv2, hne1, hne2⟩
            injection hc2 with hc2
            subst hc2
            rw [hcr] at hv2
            exact Option.noConfusion hv2
        | some value =>
            show Except.ok (if value = Cell.missing ∨ value = Cell.text "" then none
              else some value) = Except.ok (some v) ↔ _
            by_cases hcond : value = Cell.missing ∨ value = Cell.text ""
            · rw [if_pos hcond]
              refine iff_of_false (by simp) ?_
              rintro ⟨col2, hc2, hv2, hne1, hne2⟩
              injection hc2 with hc2
              subst hc2
              rw [hcr] at hv2
              injection hv2 with hv2
              subst hv2
              rcases hcond with h | h
              · exact hne1 h
              · exact hne2 h
            · rw [if_neg hcond]
              push_neg at hcond
              constructor
              · intro h
                injection h with h
                injection h with h
                subst h
                exact ⟨col, rfl, hcr, hcond.1, hcond.2⟩
              · rintro ⟨col2, hc2, hv2, hne1, hne2⟩
                injection hc2 with hc2
                subst hc2
                rw [hcr] at hv2
                injection hv2 with hv2
                rw [hv2]
  · intro col hcol hle
    rw [get_value_of_lookup_some hcol, List.getElem?_eq_none hle]
  · intro t2 v r hnone hne hr
    constructor
    · have hlk : lookupCol (set_results t2 row [(key, v)]) key =
          some (((lookupCol t2 key).getD
            (List.replicate t2.nrows (Cell.text ""))).set row v) :=
        lookupCol_set_results_of_mem row [(key, v)] t2 (by simp) key v (by simp)
      rw [hnone] at hlk
      simp only [Option.getD_none] at hlk
      rw [get_value_of_lookup_some hlk, List.getElem?_set_ne (Ne.symm hne),
        List.getElem?_replicate, if_pos hr]
      rfl
    · rw [get_value_of_lookup_none hnone]

/-- C10 witness: within a 2-row table, a cell never written and a cell
freshly created by the empty-string fill both read back as `None`. -/
theorem get_value_spec_witness :
    get_value (set_results ⟨2, []⟩ 0 [("k", Cell.text "z")]) 1 "k" = .ok none ∧
      get_value (⟨2, []⟩ : Table) 1 "k" = .ok none :=
  (get_value_spec ⟨2, []⟩ 0 "k").2.2.2 ⟨2, []⟩ (Cell.text "z") 1 rfl (by decide)
    (by decide)

/-- C7: a sheet in which more than one successfully classified column
claims the same required role key fails Person-List Assembly with the
duplicate-role diagnostic, and only required keys are checked: the
duplicate check passes whenever every required key has at most one
claimant, regardless of how many columns claim the optional email
key. -/
theorem duplicate_role_detection :
    (∀ (outcomes : List (Except Diagnostic ClassifiedColumn)) (k : String),
      k ∈ requiredKeys → 1 < (columnsFor outcomes k).length →
      personList outcomes =
        .error (.validation (.leaf "multiple columns for {key}" none))) ∧
    (∀ outcomes, (∀ k ∈ requiredKeys, (columnsFor outcomes k).length ≤ 1) →
      dupCheck outcomes = .ok ()) := by
  constructor
  · intro outcomes k hk hgt
    have hd : dupCheck outcomes =
        .error (.validation (.leaf "multiple columns for {key}" none)) := by
      unfold dupCheck
      rw [if_neg ?_]
      intro hcon
      have h2 := List.all_eq_true.mp hcon k hk
      simp only [decide_eq_true_eq] at h2
      omega
    unfold personList
    rw [hd]
    rfl
  · intro outcomes h
    unfold dupCheck
    rw [if_pos ?_]
    exact List.all_eq_true.mpr (fun k hk => by
      simp only [decide_eq_true_eq]
      exact h k hk)

/-- C7 witness: two successful pnr columns make assembly fail with the
duplicate-role diagnostic, while two email claimants alone pass the
duplicate check. -/
theorem duplicate_role_detection_witness :
    personList
        [Except.ok { key := "pnr",
                     column := ⟨"Personnummer", [Cell.text "900101-1234"]⟩,
                     found_data := [Cell.text "900101-1234"],
                     valid_rows := [0] },
          Except.ok { key := "pnr",
                      column := ⟨"Pnr", [Cell.text "900101-1234"]⟩,
                      found_data := [Cell.text "900101-1234"],
                      valid_rows := [0] }] =
      .error (.validation (.leaf "multiple columns for {key}" none)) ∧
    dupCheck
        [Except.ok { key := "email",
                     column := ⟨"Epostadress", [Cell.text "a@b.se"]⟩,
                     found_data := [Cell.text "a@b.se"],
                     valid_rows := [0] },
          Except.ok { key := "email",
                      column := ⟨"Mailaddress", [Cell.text "a@b.se"]⟩,
                      found_data := [Cell.text "a@b.se"],
                      valid_rows := [0] }] = .ok () :=
  ⟨duplicate_role_detection.1 _ "pnr" (by decide) (by decide),
    duplicate_role_detection.2 _ (by decide)⟩

/-- A successful `mkPerson` carries the row position it was built for. -/
theorem mkPerson_ok_index {outcomes : List (Except Diagnostic ClassifiedColumn)}
    {i : Nat} {p : Person} (h : mkPerson outcomes i = .ok p) : p.index = i := by
  unfold mkPerson at h
  split at h
  · split at h
    · injection h with h
      rw [← h]
    · exact Except.noConfusion h
  · exact Except.noConfusion h

/-- A `mapM` that returns `ok` relates inputs and outputs pointwise. -/
theorem mapM_ok_forall₂ {α β : Type} (f : α → Except PyError β) :
    ∀ (l : List α) (ps : List β), l.mapM f = .ok ps →
      List.Forall₂ (fun x y => f x = .ok y) l ps := by
  intro l
  induction l with
  | nil =>
      intro ps h
      rw [List.mapM_nil] at h
      injection h with h
      rw [← h]
      constructor
  | cons a as ih =>
      intro ps h
      rw [List.mapM_cons] at h
      cases hfa : f a with
      | error e =>
          rw [hfa] at h
          exact Except.noConfusion h
      | ok b =>
          rw [hfa] at h
          cases hms : as.mapM f with
          | error e =>
              rw [hms] at h
              exact Except.noConfusion h
          | ok bs =>
              rw [hms] at h
              injection h with h
              rw [← h]
              exact List.Forall₂.cons hfa (ih bs hms)

/-- `mapM` succeeds with the pointwise images when every element maps to
an `ok`. -/
theorem mapM_ok_of_forall {α β : Type} (f : α → Except PyError β) (g : α → β) :
    ∀ l : List α, (∀ x ∈ l, f x = .ok (g x)) → l.mapM f = .ok (l.map g) := by
  intro l
  induction l with
  | nil => intro _; rw [List.mapM_nil]; rfl
  | cons a as ih =>
      intro h
      rw [List.mapM_cons, h a (List.mem_cons_self _ _),
        ih (fun x hx => h x (List.mem_cons_of_mem _ hx))]
      rfl

/-- The indices of `mapM mkPerson` outputs are exactly the input row
positions, in order. -/
theorem forall₂_mkPerson_index {outcomes : List (Except Diagnostic ClassifiedColumn)} :
    ∀ {l : List Nat} {ps : List Person},
      List.Forall₂ (fun i p => mkPerson outcomes i = .ok p) l ps →
      ps.map Person.index = l := by
  intro l ps h
  induction h with
  | nil => rfl
  | cons hf _ ih =>
      simp only [List.map_cons, ih]
      rw [mkPerson_ok_index hf]

/-- The valid-rows fold from a `some` accumulator is the plain
intersection fold. -/
theorem foldValidRows_some (sets : List (Finset Nat)) :
    ∀ acc : Finset Nat,
      sets.foldl
        (fun a s => match a with | none => some s | some a => some (a ∩ s))
        (some acc) = some (sets.foldl (· ∩ ·) acc) := by
  induction sets with
  | nil => intro acc; rfl
  | cons s rest ih => intro acc; exact ih (acc ∩ s)

/-- The valid-rows fold of a nonempty list of sets. -/
theorem foldValidRows_cons (s : Finset Nat) (rest : List (Finset Nat)) :
    foldValidRows (s :: rest) = some (rest.foldl (· ∩ ·) s) := by
  unfold foldValidRows
  rw [List.foldl_cons]
  exact foldValidRows_some rest s

/-- Membership in an intersection fold. -/
theorem mem_foldl_inter (i : Nat) :
    ∀ (sets : List (Finset Nat)) (acc : Finset Nat),
      i ∈ sets.foldl (· ∩ ·) acc ↔ i ∈ acc ∧ ∀ x ∈ sets, i ∈ x := by
  intro sets
  induction sets with
  | nil => intro acc; simp
  | cons s rest ih =>
      intro acc
      rw [List.foldl_cons, ih]
      simp only [Finset.mem_inter, List.mem_cons]
      constructor
      · rintro ⟨⟨h1, h2⟩, h3⟩
        exact ⟨h1, fun x hx => hx.elim (fun hh => hh ▸ h2) (h3 x)⟩
      · rintro ⟨h1, h2⟩
        exact ⟨⟨h1, h2 s (Or.inl rfl)⟩, fun x hx => h2 x (Or.inr hx)⟩

/-- The valid-rows fold is invariant under permutation of the set
list. -/
theorem foldValidRows_perm {s1 s2 : List (Finset Nat)} (h : s1.Perm s2) :
    foldValidRows s1 = foldValidRows s2 := by
  unfold foldValidRows
  refine h.foldl_eq' ?_ none
  intro x _ y _ z
  match z with
  | none => exact congrArg some (Finset.inter_comm x y)
  | some a => exact congrArg some (Finset.inter_right_comm a x y)

/-- A unique claimant of a role key is one of the successful columns. -/
theorem mem_successes_of_columnsFor {outcomes : List (Except Diagnostic ClassifiedColumn)}
    {k : String} {c : ClassifiedColumn} (h : columnsFor outcomes k = [c]) :
    c ∈ successes outcomes := by
  have : c ∈ columnsFor outcomes k := by
    rw [h]
    exact List.mem_singleton_self c
  exact List.mem_of_mem_filter this

/-- The value of a `Person` construction when the three required roles
are bound and the pnr found-data at the row is text. -/
theorem mkPerson_eq {outcomes : List (Except Diagnostic ClassifiedColumn)}
    {cp cg cf : ClassifiedColumn}
    (hap : assignedColumn outcomes "pnr" = some cp)
    (hag : assignedColumn outcomes "given_name" = some cg)
    (haf : assignedColumn outcomes "family_name" = some cf)
    {i : Nat} {s : String} (hs : cp.found_data.getD i Cell.missing = Cell.text s) :
    mkPerson outcomes i =
      .ok { index := i, pnr := pnrNormalize s,
            given_name := cg.found_data.getD i Cell.missing,
            family_name := cf.found_data.getD i Cell.missing,
            email := (assignedColumn outcomes "email").map
              (fun ce => ce.found_data.getD i Cell.missing) } := by
  unfold mkPerson
  rw [hap, hag, haf]
  show (match cp.found_data.getD i Cell.missing with
    | Cell.text s =>
        Except.ok (⟨i, pnrNormalize s, cg.found_data.getD i Cell.missing,
          cf.found_data.getD i Cell.missing,
          (assignedColumn outcomes "email").map
            (fun (ce : ClassifiedColumn) => ce.found_data.getD i Cell.missing)⟩ :
          Person)
    | _ => Except.error (PyError.generic "AttributeError: replace on non-string value"))
      = _
  rw [hs]

/-- C1 (code bug): on a sheet whose three required roles classify
successfully (one column each) with the email role entirely unassigned,
the duplicate, missing-required and row-count checks all pass, yet the
unguarded found-data assignment loop of `PersonList.__init__` lines
209-210 raises a plain dict `KeyError` for the unbound email key, so
Person-List Assembly crashes with a generic exception instead of
producing a person list with absent emails. -/
theorem email_unassigned_keyerror :
    dupCheck
        [Except.ok { key := "pnr",
                     column := ⟨"Personnummer", [Cell.text "900101-1234"]⟩,
                     found_data := [Cell.text "900101-1234"],
                     valid_rows := [0] },
          Except.ok { key := "family_name",
                      column := ⟨"Efternamn", [Cell.text "Svensson"]⟩,
                      found_data := [Cell.text "Svensson"],
                      valid_rows := [0] },
          Except.ok { key := "given_name",
                      column := ⟨"Förnamn", [Cell.text "Anna"]⟩,
                      found_data := [Cell.text "Anna"],
                      valid_rows := [0] }] = .ok () ∧
    missingCheck
        [Except.ok { key := "pnr",
                     column := ⟨"Personnummer", [Cell.text "900101-1234"]⟩,
                     found_data := [Cell.text "900101-1234"],
                     valid_rows := [0] },
          Except.ok { key := "family_name",
                      column := ⟨"Efternamn", [Cell.text "Svensson"]⟩,
                      found_data := [Cell.text "Svensson"],
                      valid_rows := [0] },
          Except.ok { key := "given_name",
                      column := ⟨"Förnamn", [Cell.text "Anna"]⟩,
                      found_data := [Cell.text "Anna"],
                      valid_rows := [0] }] = .ok () ∧
    sizeCheck
        [Except.ok { key := "pnr",
                     column := ⟨"Personnummer", [Cell.text "900101-1234"]⟩,
                     found_data := [Cell.text "900101-1234"],
                     valid_rows := [0] },
          Except.ok { key := "family_name",
                      column := ⟨"Efternamn", [Cell.text "Svensson"]⟩,
                      found_data := [Cell.text "Svensson"],
                      valid_rows := [0] },
          Except.ok { key := "given_name",
                      column := ⟨"Förnamn", [Cell.text "Anna"]⟩,
                      found_data := [Cell.text "Anna"],
                      valid_rows := [0] }] = .ok () ∧
    assignFoundData
        [Except.ok { key := "pnr",
                     column := ⟨"Personnummer", [Cell.text "900101-1234"]⟩,
                     found_data := [Cell.text "900101-1234"],
                     valid_rows := [0] },
          Except.ok { key := "family_name",
                      column := ⟨"Efternamn", [Cell.text "Svensson"]⟩,
                      found_data := [Cell.text "Svensson"],
                      valid_rows := [0] },
          Except.ok { key := "given_name",
                      column := ⟨"Förnamn", [Cell.text "Anna"]⟩,
                      found_data := [Cell.text "Anna"],
                      valid_rows := [0] }] =
      .error (.generic "KeyError: \x27column\x27") ∧
    personList
        [Except.ok { key := "pnr",
                     column := ⟨"Personnummer", [Cell.text "900101-1234"]⟩,
                     found_data := [Cell.text "900101-1234"],
                     valid_rows := [0] },
          Except.ok { key := "family_name",
                      column := ⟨"Efternamn", [Cell.text "Svensson"]⟩,
                      found_data := [Cell.text "Svensson"],
                      valid_rows := [0] },
          Except.ok { key := "given_name",
                      column := ⟨"Förnamn", [Cell.text "Anna"]⟩,
                      found_data := [Cell.text "Anna"],
                      valid_rows := [0] }] =
      .error (.generic "KeyError: \x27column\x27") :=
  ⟨rfl, rfl, rfl, rfl, rfl⟩

/-- C4: every successful Person-List Assembly produces persons in
strictly ascending index order, exactly one per row position of the
required-role valid-row intersection (the fold over the required keys),
and that intersection is independent of the order in which the required
roles are intersected. -/
theorem person_assembly_order (outcomes : List (Except Diagnostic ClassifiedColumn))
    (ps : List Person) (h : personList outcomes = .ok ps) :
    List.Sorted (· < ·) (ps.map Person.index) ∧
    (∃ vr, requiredValidRows outcomes = some vr ∧
      ps.map Person.index = vr.sort (· ≤ ·) ∧
      (ps.map Person.index).Nodup ∧
      (∀ i, i ∈ ps.map Person.index ↔ i ∈ vr) ∧
      (∀ i, i ∈ vr ↔ ∀ k ∈ requiredKeys, ∀ c,
        assignedColumn outcomes k = some c → i ∈ c.valid_rows.toFinset)) ∧
    (∀ keys : List String, keys.Perm requiredKeys →
      requiredValidRowsIn keys outcomes = requiredValidRows outcomes) := by
  have hperm : ∀ keys : List String, keys.Perm requiredKeys →
      requiredValidRowsIn keys outcomes = requiredValidRows outcomes := by
    intro keys hp
    unfold requiredValidRows requiredValidRowsIn
    exact foldValidRows_perm (hp.filterMap _)
  unfold personList at h
  cases hd : dupCheck outcomes with
  | error e =>
      rw [hd] at h
      exact Except.noConfusion h
  | ok u =>
      rw [hd] at h
      cases hm : missingCheck outcomes with
      | error e =>
          rw [hm] at h
          exact Except.noConfusion h
      | ok u2 =>
          rw [hm] at h
          cases hz : sizeCheck outcomes with
          | error e =>
              rw [hz] at h
              exact Except.noConfusion h
          | ok u3 =>
              rw [hz] at h
              cases ha : assignFoundData outcomes with
              | error e =>
                  rw [ha] at h
                  exact Except.noConfusion h
              | ok u4 =>
               rw [ha] at h
               cases hv : requiredValidRows outcomes with
               | none =>
                  rw [hv] at h
                  exact Except.noConfusion h
               | some vr =>
                  rw [hv] at h
                  have h2 : (vr.sort (· ≤ ·)).mapM (mkPerson outcomes) = .ok ps := h
                  have hall := mapM_ok_forall₂ (mkPerson outcomes) _ _ h2
                  have hidx : ps.map Person.index = vr.sort (· ≤ ·) :=
                    forall₂_mkPerson_index hall
                  have hassigned : ∀ k ∈ requiredKeys,
                      ∃ c, assignedColumn outcomes k = some c := by
                    intro k hk
                    unfold missingCheck at hm
                    cases hfind : requiredKeys.find?
                        (fun k => (assignedColumn outcomes k).isNone) with
                    | some k0 =>
                        rw [hfind] at hm
                        exact Except.noConfusion hm
                    | none =>
                        have hnot := List.find?_eq_none.mp hfind k hk
                        cases hc : assignedColumn outcomes k with
                        | none => exact absurd (by rw [hc]; rfl) hnot
                        | some c => exact ⟨c, rfl⟩
                  refine ⟨?_, ⟨vr, rfl, hidx, ?_, ?_, ?_⟩, ?_⟩
                  · rw [hidx]
                    exact Finset.sort_sorted_lt vr
                  · rw [hidx]
                    exact Finset.sort_nodup _ vr
                  · intro i
                    rw [hidx]
                    exact Finset.mem_sort _
                  · intro i
                    unfold requiredValidRows requiredValidRowsIn at hv
                    cases hS : requiredKeys.filterMap (fun k =>
                        (assignedColumn outcomes k).map
                          (fun c => c.valid_rows.toFinset)) with
                    | nil =>
                        rw [hS] at hv
                        exact Option.noConfusion hv
                    | cons s rest =>
                        rw [hS, foldValidRows_cons] at hv
                        injection hv with hv
                        constructor
                        · intro hivr k hk c hkc
                          have hiall : i ∈ s ∧ ∀ x ∈ rest, i ∈ x := by
                            rw [← hv] at hivr
                            exact (mem_foldl_inter i rest s).mp hivr
                          have hmemS : c.valid_rows.toFinset ∈
                              requiredKeys.filterMap (fun k =>
                                (assignedColumn outcomes k).map
                                  (fun c => c.valid_rows.toFinset)) :=
                            List.mem_filterMap.mpr ⟨k, hk, by rw [hkc]; rfl⟩
                          rw [hS] at hmemS
                          rcases List.mem_cons.mp hmemS with heq | hmem'
                          · rw [heq]
                            exact hiall.1
                          · exact hiall.2 _ hmem'
                        · intro hforall
                          rw [← hv]
                          refine (mem_foldl_inter i rest s).mpr ⟨?_, ?_⟩
                          · have hmemS : s ∈ s :: rest := List.mem_cons_self _ _
                            rw [← hS] at hmemS
                            obtain ⟨k, hk, hks⟩ := List.mem_filterMap.mp hmemS
                            cases hc : assignedColumn outcomes k with
                            | none =>
                                rw [hc] at hks
                                exact Option.noConfusion hks
                            | some c =>
                                rw [hc] at hks
                                injection hks with hks
                                rw [← hks]
                                exact hforall k hk c hc
                          · intro x hx
                            have hmemS : x ∈ s :: rest := List.mem_cons_of_mem _ hx
                            rw [← hS] at hmemS
                            obtain ⟨k, hk, hks⟩ := List.mem_filterMap.mp hmemS
                            cases hc : assignedColumn outcomes k with
                            | none =>
                                rw [hc] at hks
                                exact Option.noConfusion hks
                            | some c =>
                                rw [hc] at hks
                                injection hks with hks
                                rw [← hks]
                                exact hforall k hk c hc
                  · intro keys hpk
                    rw [hperm keys hpk]
                    exact hv

/-- C4 witness: a one-row example sheet (with an email column bound, as
the found-data assignment loop requires) assembles to a single person
with index 0, in sorted order. -/
theorem person_assembly_order_witness :
    List.Sorted (· < ·)
      (([⟨0, "9001011234", Cell.text "Anna", Cell.text "Svensson",
          some (Cell.text "anna@kth.se")⟩] :
        List Person).map Person.index) :=
  (person_assembly_order
    [Except.ok { key := "pnr",
                 column := ⟨"Personnummer", [Cell.text "900101-1234"]⟩,
                 found_data := [Cell.text "900101-1234"],
                 valid_rows := [0] },
      Except.ok { key := "family_name",
                  column := ⟨"Efternamn", [Cell.text "Svensson"]⟩,
                  found_data := [Cell.text "Svensson"],
                  valid_rows := [0] },
      Except.ok { key := "given_name",
                  column := ⟨"Förnamn", [Cell.text "Anna"]⟩,
                  found_data := [Cell.text "Anna"],
                  valid_rows := [0] },
      Except.ok { key := "email",
                  column := ⟨"Epostadress", [Cell.text "anna@kth.se"]⟩,
                  found_data := [Cell.text "anna@kth.se"],
                  valid_rows := [0] }]
    [⟨0, "9001011234", Cell.text "Anna", Cell.text "Svensson",
      some (Cell.text "anna@kth.se")⟩]
    (by
      unfold personList
      simp only [(by decide : requiredValidRows
          [Except.ok { key := "pnr",
                       column := ⟨"Personnummer", [Cell.text "900101-1234"]⟩,
                       found_data := [Cell.text "900101-1234"],
                       valid_rows := [0] },
            Except.ok { key := "family_name",
                        column := ⟨"Efternamn", [Cell.text "Svensson"]⟩,
                        found_data := [Cell.text "Svensson"],
                        valid_rows := [0] },
            Except.ok { key := "given_name",
                        column := ⟨"Förnamn", [Cell.text "Anna"]⟩,
                        found_data := [Cell.text "Anna"],
                        valid_rows := [0] },
            Except.ok { key := "email",
                        column := ⟨"Epostadress", [Cell.text "anna@kth.se"]⟩,
                        found_data := [Cell.text "anna@kth.se"],
                        valid_rows := [0] }] = some ({0} : Finset Nat)),
        Finset.sort_singleton]
      rfl)).1

end Pandros
